import Mathlib

/-!
Shallow embedding of the SEO audit tool (`src/app.py`, class `SEOAuditor`)
and proofs of the specified properties of its pipeline:
extraction → metric computation → suggestion generation → persistence.

External libraries used by the program (requests, BeautifulSoup, nltk,
spaCy) are not part of the repository; their observable behaviour is
modelled by explicit pure functions, documented at each definition.
The repository's own code (`analyze_article`, `suggest_improvements`,
`save_analysis`) is embedded line by line.
-/

namespace SEOAudit

/-- Splits a character list at every separator character, keeping empty
pieces, with `cur` the (reversed) piece read so far. -/
def splitCl (p : Char → Bool) (cur : List Char) : List Char → List String
  | [] => [String.mk cur.reverse]
  | c :: rest =>
    if p c then String.mk cur.reverse :: splitCl p [] rest
    else splitCl p (c :: cur) rest

/-- Splits a string at every character satisfying `p`, keeping empty
pieces. -/
def strSplit (p : Char → Bool) (s : String) : List String :=
  splitCl p [] s.toList

/-- Removes leading and trailing whitespace (Python `str.strip()`). -/
def trimStr (s : String) : String :=
  String.mk
    (((s.toList.dropWhile Char.isWhitespace).reverse.dropWhile
      Char.isWhitespace).reverse)

/-- Lower-cases every character (Python `str.lower()`). -/
def lowerStr (s : String) : String :=
  String.mk (s.toList.map Char.toLower)

/-- Joins strings with a separator (Python `sep.join(...)`). -/
def joinWith (sep : String) : List String → String
  | [] => ""
  | [x] => x
  | x :: y :: rest => x ++ sep ++ joinWith sep (y :: rest)

/-- Embeds Python `str.split()` with no argument: split on runs of
whitespace, dropping empty pieces. -/
def pySplit (s : String) : List String :=
  (strSplit Char.isWhitespace s).filter (fun w => w ≠ "")

/-- Embeds `word_count = len(text.split())` (app.py line 34). -/
def wordCount (text : String) : Nat :=
  (pySplit text).length

/-- Models the library call `nltk.sent_tokenize(text)` (app.py line 35):
a general-purpose sentence boundary detector, modelled as splitting at
the sentence-final punctuation marks and dropping whitespace-only
pieces.  On the empty string it yields no sentences, as nltk does. -/
def sentTokenize (text : String) : List String :=
  (((strSplit (fun c => c = '.' || c = '!' || c = '?') text).map
    trimStr).filter (fun s => s ≠ ""))

/-- Embeds `avg_sentence_length = word_count / len(sentences) if sentences else 0`
(app.py line 36).  Python float division is modelled by exact rational
division. -/
def avgSentenceLength (text : String) : Rat :=
  if (sentTokenize text).length ≠ 0 then
    (wordCount text : Rat) / ((sentTokenize text).length : Rat)
  else 0

/-- Models the spaCy English language-default stopword set used through
`token.is_stop` (app.py line 59): a fixed list of common English words
(representative subset of the library's data, which is not part of the
repository). -/
def stopWords : List String :=
  ["the", "and", "for", "that", "with", "this", "are", "was", "but",
   "not", "you", "all", "can", "her", "has", "him", "his", "she",
   "they", "them", "their", "what", "which", "will", "would", "there",
   "been", "have", "had", "its", "our", "out", "who", "how", "when",
   "where", "why", "more", "most", "other", "some", "such", "than",
   "too", "very", "just", "about", "into", "over", "after", "before"]

/-- Models spaCy's `token.is_stop`: membership of the lower-cased token
in the language-default stopword set. -/
def isStopTok (tok : String) : Bool :=
  stopWords.contains (lowerStr tok)

/-- Models spaCy's `token.is_alpha`: the token is nonempty and consists
of alphabetic characters only. -/
def isAlphaTok (tok : String) : Bool :=
  tok ≠ "" && tok.toList.all Char.isAlpha

/-- Models the spaCy tokenizer applied by `self.nlp(text)` (app.py
line 56): maximal runs of alphanumeric characters become tokens
(punctuation-only tokens, which the alpha filter would discard anyway,
are not produced by this model). -/
def spacyTokens (text : String) : List String :=
  (strSplit (fun c => !c.isAlphanum) text).filter (fun w => w ≠ "")

/-- Embeds the Python dict update
`keywords[k] = keywords.get(k, 0) + 1` on an insertion-ordered
association list: an existing key is incremented in place, a new key is
appended at the end with count 1. -/
def bump (acc : List (String × Nat)) (k : String) : List (String × Nat) :=
  if acc.any (fun p => p.1 = k) then
    acc.map (fun p => if p.1 = k then (p.1, p.2 + 1) else p)
  else acc ++ [(k, 1)]

/-- Embeds the keyword-counting loop (app.py lines 57-60): every token
that is not a stopword, is alphabetic, and is longer than 2 characters
is lower-cased and counted. -/
def keywordCounts (text : String) : List (String × Nat) :=
  (spacyTokens text).foldl
    (fun acc tok =>
      if !(isStopTok tok) && isAlphaTok tok && tok.length > 2 then
        bump acc (lowerStr tok)
      else acc)
    []

/-- Inserts an entry into a count-descending list, after every entry
whose count is at least as large (so earlier entries with equal count
stay in front, matching the stability of Python's `sorted`). -/
def insertByCount (x : String × Nat) : List (String × Nat) → List (String × Nat)
  | [] => [x]
  | y :: rest =>
    if y.2 < x.2 then x :: y :: rest
    else y :: insertByCount x rest

/-- Models `sorted(items, key=lambda x: x[1], reverse=True)`
(app.py line 63): a stable sort by descending count, processing the
items in order and inserting each behind its equal-count
predecessors. -/
def sortByCountDesc (l : List (String × Nat)) : List (String × Nat) :=
  l.foldl (fun acc x => insertByCount x acc) []

/-- Embeds
`dict(sorted(keywords.items(), key=lambda x: x[1], reverse=True)[:10])`
(app.py line 63): stable sort by descending count, keep the first 10
entries, rebuild the insertion-ordered dict (modelled as the association
list itself, whose keys are already distinct). -/
def topKeywords (text : String) : List (String × Nat) :=
  (sortByCountDesc (keywordCounts text)).take 10

/-- Anchor element of the parsed document: its text content and its
optional `href` attribute (BeautifulSoup's `find_all('a', href=True)`
keeps only those whose href is present). -/
structure Anchor where
  text : String
  href : Option String
deriving DecidableEq

/-- Heading element of the parsed document: its level (1 to 6 for H1-H6)
and text content. -/
structure Heading where
  level : Nat
  text : String
deriving DecidableEq

/-- Models the document structure that `BeautifulSoup(response.text,
'html.parser')` exposes to `analyze_article`: the paragraph texts, the
headings and the anchors, each in document order. -/
structure HtmlDoc where
  paragraphs : List String
  headings : List Heading
  anchors : List Anchor
deriving DecidableEq

/-- Link record `{'text': a.text.strip(), 'href': a.get('href')}`
(app.py line 49). -/
structure LinkRef where
  text : String
  href : String
deriving DecidableEq

/-- Metric block of the analysis result (app.py lines 68-74). -/
structure MetricSet where
  word_count : Nat
  avg_sentence_length : Rat
  num_headings : Nat
  num_internal_links : Nat
  num_external_links : Nat
deriving DecidableEq

/-- Full successful analysis record (app.py lines 65-79). -/
structure AnalysisRecord where
  url : String
  analyzed_at : String
  metrics : MetricSet
  headings : List String
  internal_links : List LinkRef
  external_links : List LinkRef
  top_keywords : List (String × Nat)
deriving DecidableEq

/-- One improvement suggestion (app.py lines 89-129). -/
structure Suggestion where
  category : String
  issue : String
  suggestion : String
  priority : String
deriving DecidableEq

/-- Decides whether `pat` occurs as a contiguous run inside `s`
(auxiliary for the Python `in` test on strings). -/
def hasInfix (pat : List Char) : List Char → Bool
  | [] => pat.isEmpty
  | c :: rest => pat.isPrefixOf (c :: rest) || hasInfix pat rest

/-- Embeds the Python substring test `domain in link['href']`
(app.py line 50). -/
def strIn (pat s : String) : Bool :=
  hasInfix pat.toList s.toList

/-- Embeds `re.findall(r'https?://(?:www\.)?([^/]+)', url)[0]`
(app.py line 46) on the character list: find the first position where
the pattern matches and return its capture group.  Returns `none` when
the pattern matches nowhere, in which case the Python indexing `[0]`
raises `IndexError`. -/
def findDomainAux : List Char → Option String
  | [] => none
  | c :: rest =>
    let s := c :: rest
    let afterScheme : Option (List Char) :=
      if ("https://".toList).isPrefixOf s then some (s.drop 8)
      else if ("http://".toList).isPrefixOf s then some (s.drop 7)
      else none
    match afterScheme with
    | some t =>
      let t := if ("www.".toList).isPrefixOf t then t.drop 4 else t
      let dom := t.takeWhile (fun ch => ch ≠ '/')
      if dom.isEmpty then findDomainAux rest else some (String.mk dom)
    | none => findDomainAux rest

/-- Domain extraction from the URL (app.py line 46). -/
def extractDomain (url : String) : Option String :=
  findDomainAux url.toList

/-- One step of the link-classification loop (app.py lines 48-53): an
anchor without href is skipped (`find_all('a', href=True)` never yields
it), otherwise the `LinkRef` is appended to the internal list when the
domain occurs as a substring of the href, to the external list
otherwise. -/
def linkStep (domain : String) (acc : List LinkRef × List LinkRef)
    (a : Anchor) : List LinkRef × List LinkRef :=
  match a.href with
  | none => acc
  | some h =>
    let link : LinkRef := ⟨trimStr a.text, h⟩
    if strIn domain h then (acc.1 ++ [link], acc.2)
    else (acc.1, acc.2 ++ [link])

/-- Embeds the link-classification loop (app.py lines 44-53). -/
def extractLinks (domain : String) (anchors : List Anchor) :
    List LinkRef × List LinkRef :=
  anchors.foldl (linkStep domain) ([], [])

/-- Embeds the heading-collection loop (app.py lines 39-41):
`for i in range(1, 7): headings.extend(h.text.strip() for h in
soup.find_all(f'h\x7bi\x7d'))` — level by level, each level in document
order, whitespace trimmed. -/
def extractHeadings (doc : HtmlDoc) : List String :=
  (List.range 6).flatMap
    (fun i => ((doc.headings.filter (fun h => h.level = i + 1)).map
      (fun h => trimStr h.text)))

/-- Embeds `' '.join([p.text for p in soup.find_all('p')])`
(app.py line 31). -/
def paragraphText (doc : HtmlDoc) : String :=
  joinWith " " doc.paragraphs

/-- Embeds `SEOAuditor.analyze_article` (app.py lines 25-81).  The
network fetch and HTML parse are modelled by the `fetched` argument:
`Except.error msg` when `requests.get`/parsing raises with message
`msg`, `Except.ok doc` when they produce a parsed document.  The wall
clock `datetime.now().isoformat()` is the `now` argument.  Any failure
inside the `try` block — a failed fetch, or the `IndexError` raised by
`[0]` when the domain regex matches nowhere — is caught by the
catch-all `except` and turned into an error result; a successful run
returns the analysis record. -/
def analyze_article (url : String) (fetched : Except String HtmlDoc)
    (now : String) : Except String AnalysisRecord :=
  match fetched with
  | .error e => .error e
  | .ok doc =>
    let text := paragraphText doc
    let wc := wordCount text
    let avg := avgSentenceLength text
    let headings := extractHeadings doc
    match extractDomain url with
    | none => .error "list index out of range"
    | some domain =>
      let links := extractLinks domain doc.anchors
      .ok
        { url := url
          analyzed_at := now
          metrics :=
            { word_count := wc
              avg_sentence_length := avg
              num_headings := headings.length
              num_internal_links := links.1.length
              num_external_links := links.2.length }
          headings := headings
          internal_links := links.1
          external_links := links.2
          top_keywords := topKeywords text }

/-- Embeds `SEOAuditor.suggest_improvements` (app.py lines 83-131): the
five threshold rules, applied to `analysis['metrics']` in declaration
order, each appending its suggestion independently. -/
def suggest_improvements (analysis : AnalysisRecord) : List Suggestion :=
  let metrics := analysis.metrics
  let s0 : List Suggestion := []
  let s1 := if metrics.word_count < 300 then
      s0 ++ [⟨"Content Length", "Content is too short",
        "Aim for at least 300 words for better SEO performance.", "High"⟩]
    else s0
  let s2 := if metrics.avg_sentence_length > 20 then
      s1 ++ [⟨"Readability", "Sentences are too long",
        "Try to keep average sentence length under 20 words for better readability.",
        "Medium"⟩]
    else s1
  let s3 := if metrics.num_headings = 0 then
      s2 ++ [⟨"Structure", "No headings found",
        "Add hierarchical headings (H1, H2, etc.) to improve content structure.",
        "High"⟩]
    else s2
  let s4 := if metrics.num_internal_links < 2 then
      s3 ++ [⟨"Internal Linking", "Few internal links",
        "Add more internal links to improve site structure and SEO.", "Medium"⟩]
    else s3
  let s5 := if metrics.num_external_links = 0 then
      s4 ++ [⟨"External Linking", "No external links",
        "Consider adding relevant external links to authoritative sources.",
        "Low"⟩]
    else s4
  s5

/-- JSON value tree, as produced by Python's `json.dump` and read back
by `json.load`: objects keep key order (Python dicts are
insertion-ordered), integers and floats are distinct as in Python, and
floats are modelled by exact rationals. -/
inductive Json where
  | str : String → Json
  | int : Int → Json
  | num : Rat → Json
  | arr : List Json → Json
  | obj : List (String × Json) → Json

/-- Serializes a `LinkRef` as the dict `{'text': ..., 'href': ...}`. -/
def linkToJson (l : LinkRef) : Json :=
  .obj [("text", .str l.text), ("href", .str l.href)]

/-- Serializes the metrics dict (app.py lines 68-74): the four counts
are Python ints, the average sentence length a Python float. -/
def metricsToJson (m : MetricSet) : Json :=
  .obj
    [("word_count", .int m.word_count),
     ("avg_sentence_length", .num m.avg_sentence_length),
     ("num_headings", .int m.num_headings),
     ("num_internal_links", .int m.num_internal_links),
     ("num_external_links", .int m.num_external_links)]

/-- Serializes a full analysis record exactly as the dict built at
app.py lines 65-79 that `json.dump` writes (app.py line 140). -/
def toJson (r : AnalysisRecord) : Json :=
  .obj
    [("url", .str r.url),
     ("analyzed_at", .str r.analyzed_at),
     ("metrics", metricsToJson r.metrics),
     ("headings", .arr (r.headings.map Json.str)),
     ("internal_links", .arr (r.internal_links.map linkToJson)),
     ("external_links", .arr (r.external_links.map linkToJson)),
     ("top_keywords", .obj (r.top_keywords.map (fun p => (p.1, Json.int p.2))))]

/-- Looks a key up in a JSON object's field list (Python dict access). -/
def jLookup (fields : List (String × Json)) (k : String) : Option Json :=
  (fields.find? (fun p => p.1 = k)).map (fun p => p.2)

/-- Reads a JSON value back as a string. -/
def jStr? : Json → Option String
  | .str s => some s
  | _ => none

/-- Reads a JSON integer back as a natural number (it must be
non-negative). -/
def jNat? : Json → Option Nat
  | .int i => if 0 ≤ i then some i.toNat else none
  | _ => none

/-- Reads a JSON number back as a rational. -/
def jRat? : Json → Option Rat
  | .num q => some q
  | _ => none

/-- Reads a JSON value back as a `LinkRef`. -/
def jLink? : Json → Option LinkRef
  | .obj fields => do
    let t ← jLookup fields "text" >>= jStr?
    let h ← jLookup fields "href" >>= jStr?
    pure ⟨t, h⟩
  | _ => none

/-- Decodes every element of a JSON list, failing when any element
fails. -/
def mapOpt (g : Json → Option α) : List Json → Option (List α)
  | [] => some []
  | j :: js =>
    match g j, mapOpt g js with
    | some a, some rest => some (a :: rest)
    | _, _ => none

/-- Reads a JSON value back as a string list. -/
def jStrList? : Json → Option (List String)
  | .arr xs => mapOpt jStr? xs
  | _ => none

/-- Reads a JSON value back as a link list. -/
def jLinkList? : Json → Option (List LinkRef)
  | .arr xs => mapOpt jLink? xs
  | _ => none

/-- Decodes the fields of a JSON object as a keyword-count map,
failing when any value is not a count. -/
def kwOpt : List (String × Json) → Option (List (String × Nat))
  | [] => some []
  | (k, v) :: rest =>
    match jNat? v, kwOpt rest with
    | some c, some cs => some ((k, c) :: cs)
    | _, _ => none

/-- Reads a JSON object back as a keyword-count map. -/
def jKeywords? : Json → Option (List (String × Nat))
  | .obj fields => kwOpt fields
  | _ => none

/-- Reads a JSON object back as a `MetricSet`. -/
def jMetrics? : Json → Option MetricSet
  | .obj fields => do
    let wc ← jLookup fields "word_count" >>= jNat?
    let avg ← jLookup fields "avg_sentence_length" >>= jRat?
    let nh ← jLookup fields "num_headings" >>= jNat?
    let ni ← jLookup fields "num_internal_links" >>= jNat?
    let ne ← jLookup fields "num_external_links" >>= jNat?
    pure ⟨wc, avg, nh, ni, ne⟩
  | _ => none

/-- Parses a saved JSON file back into an `AnalysisRecord`
(the read direction of the round-trip property). -/
def fromJson (j : Json) : Option AnalysisRecord :=
  match j with
  | .obj fields => do
    let url ← jLookup fields "url" >>= jStr?
    let ts ← jLookup fields "analyzed_at" >>= jStr?
    let m ← jLookup fields "metrics" >>= jMetrics?
    let hs ← jLookup fields "headings" >>= jStrList?
    let il ← jLookup fields "internal_links" >>= jLinkList?
    let el ← jLookup fields "external_links" >>= jLinkList?
    let kw ← jLookup fields "top_keywords" >>= jKeywords?
    pure ⟨url, ts, m, hs, il, el, kw⟩
  | _ => none

/-- Filesystem model for the results directory: an association list
from file path to the JSON document stored there, in creation order. -/
abbrev Fs := List (String × Json)

/-- Embeds `open(output_file, 'w')` followed by `json.dump`: a path
already present has its content replaced (truncate-and-write), a new
path is appended. -/
def fsWrite : Fs → String → Json → Fs
  | [], path, content => [(path, content)]
  | (q, d) :: rest, path, content =>
    if q = path then (path, content) :: rest
    else (q, d) :: fsWrite rest path content

/-- Looks a path up in the filesystem model. -/
def fsRead : Fs → String → Option Json
  | [], _ => none
  | (q, d) :: rest, path => if q = path then some d else fsRead rest path

/-- Embeds the character class test of `re.sub(r'[^\w\-_.]', '_', url)`:
word characters (alphanumeric or underscore), hyphen, underscore and
dot are kept, every other character is replaced. -/
def keepChar (c : Char) : Bool :=
  c.isAlphanum || c = '_' || c = '-' || c = '.'

/-- Embeds `re.sub(r'[^\w\-_.]', '_', analysis['url'])`
(app.py line 135). -/
def sanitize (url : String) : String :=
  String.mk (url.toList.map (fun c => if keepChar c then c else '_'))

/-- Embeds `SEOAuditor.save_analysis` (app.py lines 133-142).  The
wall-clock timestamp `datetime.now().strftime('%Y%m%d_%H%M%S')` is the
`ts` argument; the results directory is the `fs` state.  Returns the
output path together with the updated filesystem. -/
def save_analysis (analysis : AnalysisRecord) (approved : Bool)
    (ts : String) (fs : Fs) : String × Fs :=
  let filename := sanitize analysis.url
  let status := if approved then "approved" else "pending"
  let path := "results/" ++ filename ++ "_" ++ status ++ "_" ++ ts ++ ".json"
  (path, fsWrite fs path (toJson analysis))

/-- Embeds the per-URL flow of `main`/`display_analysis` (app.py
lines 157-179, 229-238): analyze the URL; on error show the banner and
do nothing else; on success save exactly when the operator presses a
save button (`saveReq`), with the chosen approval flag. -/
def processUrl (url : String) (fetched : Except String HtmlDoc)
    (now ts : String) (saveReq approved : Bool) (fs : Fs) :
    Except String AnalysisRecord × Fs :=
  match analyze_article url fetched now with
  | .error e => (.error e, fs)
  | .ok rec =>
    (.ok rec, if saveReq then (save_analysis rec approved ts fs).2 else fs)

/-- One suggestion rule of the specification's fixed table: a condition
on the metrics and the suggestion it emits. -/
structure Rule where
  cond : MetricSet → Bool
  out : Suggestion

/-- Declarative rule table from the specification (section 4.4):
exactly five rules, in declaration order. -/
def ruleTable : List Rule :=
  [⟨fun m => decide (m.word_count < 300),
    ⟨"Content Length", "Content is too short",
     "Aim for at least 300 words for better SEO performance.", "High"⟩⟩,
   ⟨fun m => decide (m.avg_sentence_length > 20),
    ⟨"Readability", "Sentences are too long",
     "Try to keep average sentence length under 20 words for better readability.",
     "Medium"⟩⟩,
   ⟨fun m => decide (m.num_headings = 0),
    ⟨"Structure", "No headings found",
     "Add hierarchical headings (H1, H2, etc.) to improve content structure.",
     "High"⟩⟩,
   ⟨fun m => decide (m.num_internal_links < 2),
    ⟨"Internal Linking", "Few internal links",
     "Add more internal links to improve site structure and SEO.", "Medium"⟩⟩,
   ⟨fun m => decide (m.num_external_links = 0),
    ⟨"External Linking", "No external links",
     "Consider adding relevant external links to authoritative sources.",
     "Low"⟩⟩]

/-- Specification-side suggestion engine: keep the rules whose
condition holds, in declaration order, and emit their suggestions. -/
def suggestSpec (m : MetricSet) : List Suggestion :=
  (ruleTable.filter (fun r => r.cond m)).map (fun r => r.out)

/-- Specification-side description of one heading level: the headings
of that level, in document order, whitespace-trimmed. -/
def levelTexts (doc : HtmlDoc) (i : Nat) : List String :=
  (doc.headings.filter (fun h => h.level = i)).map (fun h => trimStr h.text)

/-- Fixture: a record for `https://e.com/x` analyzed at time t1. -/
def collisionRec1 : AnalysisRecord :=
  ⟨"https://e.com/x", "t1", ⟨0, 0, 0, 0, 0⟩, [], [], [], []⟩

/-- Fixture: a different record for the same URL, analyzed at t2. -/
def collisionRec2 : AnalysisRecord :=
  ⟨"https://e.com/x", "t2", ⟨0, 0, 0, 0, 0⟩, [], [], [], []⟩

/-- Fixture: the results directory after saving `collisionRec1` with
the approved flag at wall-clock second 20260101_120000. -/
def collisionFs1 : Fs :=
  (save_analysis collisionRec1 true "20260101_120000" []).2

/-- Fixture: a small parsed document with one paragraph, one H1 and
three anchors (two href-bearing, one internal and one external). -/
def sampleDoc : HtmlDoc :=
  ⟨["Hello there world."], [⟨1, " Title "⟩],
   [⟨"home", some "https://ex.com/b"⟩, ⟨"out", some "https://other.org"⟩,
    ⟨"plain", none⟩]⟩

/-- Fixture: the analysis record that `analyze_article` produces for
`sampleDoc` at URL https://www.ex.com/a ("there" is a stopword and
"Hello"/"world" are counted lower-cased; the word count is 3, in one
sentence). -/
def sampleRec : AnalysisRecord :=
  ⟨"https://www.ex.com/a", "ts", ⟨3, 3, 1, 1, 1⟩, ["Title"],
   [⟨"home", "https://ex.com/b"⟩], [⟨"out", "https://other.org"⟩],
   [("hello", 1), ("world", 1)]⟩

/-!
Theorems.  Each claim of the specification is settled by one theorem
below; shared helper lemmas come first.
-/

lemma linkStep_length_sum (domain : String) (acc : List LinkRef × List LinkRef)
    (a : Anchor) :
    (linkStep domain acc a).1.length + (linkStep domain acc a).2.length =
      acc.1.length + acc.2.length + (if a.href.isSome then 1 else 0) := by
  cases h : a.href with
  | none => simp [linkStep, h]
  | some v =>
    by_cases hin : strIn domain v <;> (simp [linkStep, h, hin]; try omega)

lemma extractLinks_aux (domain : String) :
    ∀ (anchors : List Anchor) (acc : List LinkRef × List LinkRef),
      (anchors.foldl (linkStep domain) acc).1.length +
        (anchors.foldl (linkStep domain) acc).2.length =
        acc.1.length + acc.2.length +
          (anchors.filter (fun a => a.href.isSome)).length
  | [], acc => by simp
  | a :: rest, acc => by
    rw [List.foldl_cons, extractLinks_aux domain rest (linkStep domain acc a)]
    rw [linkStep_length_sum]
    cases h : a.href <;> (simp [h]; try omega)

/-- C1: the Suggestion Engine returns exactly the suggestions whose
conditions hold, evaluated independently in the fixed declaration order
given by the five-rule table of the specification, and no other rule
exists; in particular the metrics (250, 15, 1, 0, 0) yield exactly
Content Length (High), Internal Linking (Medium) and External Linking
(Low), with no Readability or Structure suggestion. -/
theorem C1_suggestion_rules :
    (∀ a : AnalysisRecord, suggest_improvements a = suggestSpec a.metrics) ∧
    suggest_improvements ⟨"u", "t", ⟨250, 15, 1, 0, 0⟩, [], [], [], []⟩ =
      [⟨"Content Length", "Content is too short",
        "Aim for at least 300 words for better SEO performance.", "High"⟩,
       ⟨"Internal Linking", "Few internal links",
        "Add more internal links to improve site structure and SEO.", "Medium"⟩,
       ⟨"External Linking", "No external links",
        "Consider adding relevant external links to authoritative sources.",
        "Low"⟩] ∧
    ((suggest_improvements ⟨"u", "t", ⟨250, 15, 1, 0, 0⟩, [], [], [], []⟩).all
      (fun s => !(s.category = "Readability") && !(s.category = "Structure")))
      = true := by
  refine ⟨?_, by with_unfolding_all decide, by with_unfolding_all decide⟩
  intro a
  by_cases h1 : a.metrics.word_count < 300 <;>
  by_cases h2 : a.metrics.avg_sentence_length > 20 <;>
  by_cases h3 : a.metrics.num_headings = 0 <;>
  by_cases h4 : a.metrics.num_internal_links < 2 <;>
  by_cases h5 : a.metrics.num_external_links = 0 <;>
  simp [suggest_improvements, suggestSpec, ruleTable, h1, h2, h3, h4, h5]

/-- C2: every href-bearing anchor is classified into exactly one of the
internal or external link lists, so the two lengths add up to the
number of href-bearing anchors — no link dropped, none duplicated. -/
theorem C2_link_partition (domain : String) (anchors : List Anchor) :
    (extractLinks domain anchors).1.length +
      (extractLinks domain anchors).2.length =
      (anchors.filter (fun a => a.href.isSome)).length := by
  unfold extractLinks
  rw [extractLinks_aux]
  simp

/-- C3: any exception during fetch or domain extraction is caught at
the top of `analyze_article` and converted into an error result; a
failed analysis leaves the results directory untouched — nothing is
saved for that URL. -/
theorem C3_error_handling (url now ts : String) (saveReq approved : Bool)
    (fs : Fs) :
    (∀ m, analyze_article url (.error m) now = .error m) ∧
    (∀ m, processUrl url (.error m) now ts saveReq approved fs =
      (.error m, fs)) ∧
    (∀ doc : HtmlDoc, extractDomain url = none →
      processUrl url (.ok doc) now ts saveReq approved fs =
        (.error "list index out of range", fs)) := by
  refine ⟨fun m => rfl, fun m => rfl, fun doc h => ?_⟩
  simp [processUrl, analyze_article, h]

/-- Witness for C3: a connection error on fetch, and a URL on which the
domain regex finds no match, both yield an error result and leave the
filesystem unchanged. -/
theorem C3_witness :
    processUrl "https://e.com/x" (.error "connection error") "n" "ts"
      true true [] = (.error "connection error", []) ∧
    processUrl "noturl" (.ok ⟨[], [], []⟩) "n" "ts" true true [] =
      (.error "list index out of range", []) :=
  ⟨(C3_error_handling "https://e.com/x" "n" "ts" true true []).2.1
      "connection error",
   (C3_error_handling "noturl" "n" "ts" true true []).2.2 ⟨[], [], []⟩
      (by decide)⟩

/-- C4: the average sentence length is the word count divided by the
sentence count whenever the segmenter yields at least one sentence, and
0 when it yields none; on empty text the word count is 0, the average
is 0 and the keyword map is empty. -/
theorem C4_avg_guard (text : String) :
    ((sentTokenize text).length = 0 → avgSentenceLength text = 0) ∧
    ((sentTokenize text).length ≠ 0 →
      avgSentenceLength text * ((sentTokenize text).length : Rat) =
        (wordCount text : Rat)) ∧
    wordCount "" = 0 ∧ avgSentenceLength "" = 0 ∧ topKeywords "" = [] := by
  refine ⟨?_, ?_, by decide, by with_unfolding_all decide, by decide⟩
  · intro h
    simp [avgSentenceLength, h]
  · intro h
    rw [avgSentenceLength, if_pos h, div_mul_cancel₀]
    exact Nat.cast_ne_zero.mpr h

/-- Witness for C4: the empty text has zero sentences and average 0,
and a two-sentence text satisfies the division relation. -/
theorem C4_witness :
    avgSentenceLength "" = 0 ∧
    avgSentenceLength "One two. Three four." *
        ((sentTokenize "One two. Three four.").length : Rat) =
      (wordCount "One two. Three four." : Rat) :=
  ⟨(C4_avg_guard "").1 (by decide),
   (C4_avg_guard "One two. Three four.").2.1 (by decide)⟩

lemma mem_insertByCount {x y : String × Nat} :
    ∀ {l : List (String × Nat)}, y ∈ insertByCount x l → y = x ∨ y ∈ l := by
  intro l
  induction l with
  | nil => simp [insertByCount]
  | cons z rest ih =>
    simp only [insertByCount]
    by_cases h : z.2 < x.2
    · rw [if_pos h]
      simp only [List.mem_cons]
      tauto
    · rw [if_neg h]
      simp only [List.mem_cons]
      intro hy
      rcases hy with hy | hy
      · tauto
      · rcases ih hy with hy | hy <;> tauto

lemma pairwise_insertByCount {x : String × Nat} :
    ∀ {l : List (String × Nat)},
      l.Pairwise (fun a b => b.2 ≤ a.2) →
      (insertByCount x l).Pairwise (fun a b => b.2 ≤ a.2) := by
  intro l
  induction l with
  | nil => simp [insertByCount]
  | cons z rest ih =>
    intro hp
    rw [List.pairwise_cons] at hp
    simp only [insertByCount]
    by_cases h : z.2 < x.2
    · rw [if_pos h]
      refine List.Pairwise.cons ?_ (List.Pairwise.cons hp.1 hp.2)
      intro b hb
      rcases List.mem_cons.mp hb with hb | hb
      · subst hb
        omega
      · have := hp.1 b hb
        omega
    · rw [if_neg h]
      refine List.Pairwise.cons ?_ (ih hp.2)
      intro b hb
      rcases mem_insertByCount hb with hb | hb
      · subst hb
        omega
      · exact hp.1 b hb

lemma mem_sortByCountDesc_aux {y : String × Nat} :
    ∀ (l acc : List (String × Nat)),
      y ∈ l.foldl (fun acc x => insertByCount x acc) acc →
      y ∈ acc ∨ y ∈ l
  | [], acc => by simp
  | x :: rest, acc => by
    intro hy
    rw [List.foldl_cons] at hy
    rcases mem_sortByCountDesc_aux rest (insertByCount x acc) hy with hy | hy
    · rcases mem_insertByCount hy with hy | hy
      · subst hy
        simp
      · tauto
    · simp [hy]

lemma pairwise_sortByCountDesc_aux :
    ∀ (l acc : List (String × Nat)),
      acc.Pairwise (fun a b => b.2 ≤ a.2) →
      (l.foldl (fun acc x => insertByCount x acc) acc).Pairwise
        (fun a b => b.2 ≤ a.2)
  | [], acc => by simp
  | x :: rest, acc => by
    intro hp
    rw [List.foldl_cons]
    exact pairwise_sortByCountDesc_aux rest _ (pairwise_insertByCount hp)

lemma bump_count_pos {acc : List (String × Nat)} {k : String}
    (h : ∀ p ∈ acc, 1 ≤ p.2) : ∀ p ∈ bump acc k, 1 ≤ p.2 := by
  intro p hp
  unfold bump at hp
  by_cases hk : acc.any (fun q => q.1 = k)
  · rw [if_pos hk] at hp
    rcases List.mem_map.mp hp with ⟨q, hq, hpq⟩
    by_cases hq1 : q.1 = k
    · rw [if_pos hq1] at hpq
      subst hpq
      show 1 ≤ q.2 + 1
      omega
    · rw [if_neg hq1] at hpq
      subst hpq
      exact h q hq
  · rw [if_neg hk] at hp
    rcases List.mem_append.mp hp with hp | hp
    · exact h p hp
    · rw [List.mem_singleton] at hp
      subst hp
      exact Nat.le_refl 1

lemma keywordCounts_aux_pos :
    ∀ (toks : List String) (acc : List (String × Nat)),
      (∀ p ∈ acc, 1 ≤ p.2) →
      ∀ p ∈ toks.foldl
        (fun acc tok =>
          if !(isStopTok tok) && isAlphaTok tok && tok.length > 2 then
            bump acc (lowerStr tok)
          else acc) acc, 1 ≤ p.2
  | [], acc => by
    intro h p hp
    exact h p hp
  | tok :: rest, acc => by
    intro h p hp
    rw [List.foldl_cons] at hp
    by_cases hc : !(isStopTok tok) && isAlphaTok tok && tok.length > 2
    · rw [if_pos hc] at hp
      exact keywordCounts_aux_pos rest _ (bump_count_pos h) p hp
    · rw [if_neg hc] at hp
      exact keywordCounts_aux_pos rest acc h p hp

lemma keywordCounts_pos {text : String} :
    ∀ p ∈ keywordCounts text, 1 ≤ p.2 :=
  keywordCounts_aux_pos (spacyTokens text) [] (by simp)

/-- C5: the keyword map keeps only lower-cased alphabetic non-stopword
tokens longer than 2 characters; the resulting top-keyword list has at
most 10 entries, every entry has count at least 1, and the entries are
in descending count order. -/
theorem C5_top_keywords (text : String) :
    (topKeywords text).length ≤ 10 ∧
    ((topKeywords text).all (fun p => 1 ≤ p.2)) = true ∧
    (topKeywords text).Pairwise (fun a b => b.2 ≤ a.2) := by
  refine ⟨List.length_take_le 10 _, ?_, ?_⟩
  · rw [List.all_eq_true]
    intro p hp
    have hp2 : p ∈ sortByCountDesc (keywordCounts text) :=
      List.mem_of_mem_take hp
    rcases mem_sortByCountDesc_aux (keywordCounts text) [] hp2 with h | h
    · simp at h
    · simpa using keywordCounts_pos p h
  · exact (pairwise_sortByCountDesc_aux (keywordCounts text) []
      (by simp)).sublist (List.take_sublist 10 _)

/-- C6: headings are collected level by level, H1 through H6, each
level in document order after trimming, so the overall list is grouped
by level rather than in cross-level document order; the document with
H1 "Title" and H2 "Sub" yields headings ["Title", "Sub"], two headings,
and no Structure suggestion. -/
theorem C6_headings_grouped :
    (∀ doc : HtmlDoc, extractHeadings doc =
      ((List.range 6).map (fun i => levelTexts doc (i + 1))).flatten) ∧
    extractHeadings ⟨[], [⟨2, "Sub"⟩, ⟨1, "Title"⟩], []⟩ = ["Title", "Sub"] ∧
    analyze_article "https://example.com/a"
        (.ok ⟨[], [⟨1, "Title"⟩, ⟨2, "Sub"⟩], []⟩) "t" =
      .ok ⟨"https://example.com/a", "t", ⟨0, 0, 2, 0, 0⟩, ["Title", "Sub"],
        [], [], []⟩ ∧
    ((suggest_improvements ⟨"https://example.com/a", "t", ⟨0, 0, 2, 0, 0⟩,
        ["Title", "Sub"], [], [], []⟩).all
      (fun s => !(s.category = "Structure"))) = true := by
  refine ⟨?_, by decide, by with_unfolding_all rfl,
    by with_unfolding_all decide⟩
  intro doc
  simp [extractHeadings, levelTexts, List.flatMap]

lemma fsRead_fsWrite_self :
    ∀ (fs : Fs) (p : String) (c : Json), fsRead (fsWrite fs p c) p = some c
  | [], p, c => by simp [fsWrite, fsRead]
  | (q, d) :: rest, p, c => by
    by_cases h : q = p
    · simp [fsWrite, h, fsRead]
    · simp [fsWrite, h, fsRead, fsRead_fsWrite_self rest p c]

lemma fsRead_fsWrite_other :
    ∀ (fs : Fs) (p : String) (c : Json) (q : String), q ≠ p →
      fsRead (fsWrite fs p c) q = fsRead fs q
  | [], p, c, q => by
    intro hq
    simp [fsWrite, fsRead, Ne.symm hq]
  | (q0, d) :: rest, p, c, q => by
    intro hq
    by_cases h : q0 = p
    · subst h
      simp [fsWrite, fsRead, Ne.symm hq]
    · rw [fsWrite, if_neg h]
      by_cases h2 : q0 = q
      · simp [fsRead, h2]
      · simp [fsRead, h2, fsRead_fsWrite_other rest p c q hq]

lemma fsWrite_length_new :
    ∀ (fs : Fs) (p : String) (c : Json), fsRead fs p = none →
      (fsWrite fs p c).length = fs.length + 1
  | [], p, c => by simp [fsWrite]
  | (q, d) :: rest, p, c => by
    intro h
    by_cases hq : q = p
    · rw [fsRead, if_pos hq] at h
      exact absurd h (by simp)
    · rw [fsRead, if_neg hq] at h
      simp [fsWrite, hq, fsWrite_length_new rest p c h]

lemma fsWrite_length_old :
    ∀ (fs : Fs) (p : String) (c : Json), fsRead fs p ≠ none →
      (fsWrite fs p c).length = fs.length
  | [], p, c => by simp [fsRead]
  | (q, d) :: rest, p, c => by
    intro h
    by_cases hq : q = p
    · simp [fsWrite, hq]
    · rw [fsRead, if_neg hq] at h
      simp [fsWrite, hq, fsWrite_length_old rest p c h]

lemma jNat?_int (n : Nat) : jNat? (Json.int n) = some n := by
  simp [jNat?]

lemma mapOpt_roundtrip {α : Type} (f : α → Json) (g : Json → Option α)
    (h : ∀ a, g (f a) = some a) :
    ∀ xs : List α, mapOpt g (xs.map f) = some xs
  | [] => rfl
  | x :: xs => by
    simp [mapOpt, h x, mapOpt_roundtrip f g h xs]

lemma jLink?_roundtrip (l : LinkRef) : jLink? (linkToJson l) = some l := rfl

lemma kwOpt_roundtrip :
    ∀ kw : List (String × Nat),
      kwOpt (kw.map (fun p => (p.1, Json.int p.2))) = some kw
  | [] => rfl
  | p :: rest => by
    simp [kwOpt, jNat?_int, kwOpt_roundtrip rest]

lemma jMetrics?_roundtrip (m : MetricSet) :
    jMetrics? (metricsToJson m) = some m := by
  simp [jMetrics?, metricsToJson, jLookup, List.find?, jNat?_int, jRat?]

lemma fromJson_toJson (r : AnalysisRecord) : fromJson (toJson r) = some r := by
  simp [fromJson, toJson, jLookup, List.find?, jStr?, jMetrics?_roundtrip,
    jStrList?, jLinkList?, jKeywords?,
    mapOpt_roundtrip Json.str jStr? (fun s => rfl),
    mapOpt_roundtrip linkToJson jLink? jLink?_roundtrip, kwOpt_roundtrip]

lemma toJson_injective {r1 r2 : AnalysisRecord} (h : toJson r1 = toJson r2) :
    r1 = r2 := by
  have h2 := congrArg fromJson h
  rw [fromJson_toJson, fromJson_toJson] at h2
  exact Option.some.inj h2

/-- Counterexample to C7 as stated: saving a second record for the same
URL with the same approval flag within the same wall-clock second
produces the same filename, and the second save does not create a new
file — it overwrites the first record with the second, although the two
serialized documents differ. -/
theorem C7_counterexample :
    (save_analysis collisionRec2 true "20260101_120000" collisionFs1).2.length
      = collisionFs1.length ∧
    fsRead (save_analysis collisionRec2 true "20260101_120000" collisionFs1).2
        (save_analysis collisionRec2 true "20260101_120000" collisionFs1).1
      = some (toJson collisionRec2) ∧
    toJson collisionRec1 ≠ toJson collisionRec2 := by
  refine ⟨by with_unfolding_all rfl, by with_unfolding_all rfl, ?_⟩
  intro h
  exact absurd (toJson_injective h) (by decide)

/-- C7 (amended): the file name is sanitize(url) + "_" + status + "_" +
timestamp + ".json" under the results directory, where sanitize keeps
word characters, hyphen, underscore and dot and replaces every other
character by an underscore; the save stores the serialized record at
that path, leaving every other path unchanged — it creates a new file
when the path is absent, and otherwise overwrites the existing file
(same URL, flag and second). -/
theorem C7_save_behavior (analysis : AnalysisRecord) (approved : Bool)
    (ts : String) (fs : Fs) :
    (save_analysis analysis approved ts fs).1 =
      "results/" ++ sanitize analysis.url ++ "_" ++
        (if approved then "approved" else "pending") ++ "_" ++ ts ++
        ".json" ∧
    fsRead (save_analysis analysis approved ts fs).2
      (save_analysis analysis approved ts fs).1 = some (toJson analysis) ∧
    (∀ q, q ≠ (save_analysis analysis approved ts fs).1 →
      fsRead (save_analysis analysis approved ts fs).2 q = fsRead fs q) ∧
    (fsRead fs (save_analysis analysis approved ts fs).1 = none →
      (save_analysis analysis approved ts fs).2.length = fs.length + 1) ∧
    (fsRead fs (save_analysis analysis approved ts fs).1 ≠ none →
      (save_analysis analysis approved ts fs).2.length = fs.length) := by
  refine ⟨rfl, fsRead_fsWrite_self fs _ _, ?_, ?_, ?_⟩
  · intro q hq
    exact fsRead_fsWrite_other fs _ _ q hq
  · intro h
    exact fsWrite_length_new fs _ _ h
  · intro h
    exact fsWrite_length_old fs _ _ h

/-- Witness for C7 (amended): a save into an empty directory creates
one file and leaves other paths unchanged; a save onto an existing path
keeps the file count unchanged. -/
theorem C7_witness :
    fsRead (save_analysis collisionRec1 false "ts1" []).2 "other" =
      fsRead [] "other" ∧
    (save_analysis collisionRec1 false "ts1" []).2.length =
      ([] : Fs).length + 1 ∧
    (save_analysis collisionRec2 true "20260101_120000" collisionFs1).2.length
      = collisionFs1.length :=
  ⟨(C7_save_behavior collisionRec1 false "ts1" []).2.2.1 "other" (by decide),
   (C7_save_behavior collisionRec1 false "ts1" []).2.2.2.1 rfl,
   (C7_save_behavior collisionRec2 true "20260101_120000"
      collisionFs1).2.2.2.2
     (by with_unfolding_all exact fun h => Option.noConfusion h)⟩

/-- C8: parsing the saved JSON document back reproduces the original
record exactly — the metrics, the headings list, both link lists, the
keyword map and the timestamp string. -/
theorem C8_round_trip (r : AnalysisRecord) : fromJson (toJson r) = some r :=
  fromJson_toJson r

/-- C9: the Suggestion Engine is a deterministic, stateless function of
the metrics alone: equal metrics yield equal ordered suggestion lists
regardless of every other field, and repeating a call changes
nothing. -/
theorem C9_metrics_determine_suggestions (a1 a2 : AnalysisRecord)
    (h : a1.metrics = a2.metrics) :
    suggest_improvements a1 = suggest_improvements a2 ∧
    suggest_improvements a1 = suggest_improvements a1 := by
  constructor
  · simp only [suggest_improvements, h]
  · rfl

/-- Witness for C9: two records with the same metrics but different
URL, headings, links and keywords get the same suggestions. -/
theorem C9_witness :
    suggest_improvements
        ⟨"https://a.com", "t1", ⟨100, 5, 1, 0, 0⟩, ["H1"], [], [],
         [("word", 3)]⟩ =
      suggest_improvements
        ⟨"https://b.org", "t2", ⟨100, 5, 1, 0, 0⟩, [],
         [⟨"x", "https://a.com/y"⟩], [], []⟩ ∧
    suggest_improvements
        ⟨"https://a.com", "t1", ⟨100, 5, 1, 0, 0⟩, ["H1"], [], [],
         [("word", 3)]⟩ =
      suggest_improvements
        ⟨"https://a.com", "t1", ⟨100, 5, 1, 0, 0⟩, ["H1"], [], [],
         [("word", 3)]⟩ :=
  C9_metrics_determine_suggestions _ _ rfl

/-- C10: every successful analysis record is internally consistent: the
heading and link counts in the metrics equal the lengths of the
corresponding lists, and the word count and the keyword map both come
from the same joined paragraph text. -/
theorem C10_record_consistency (url now : String) (doc : HtmlDoc)
    (rec : AnalysisRecord)
    (h : analyze_article url (.ok doc) now = .ok rec) :
    rec.metrics.num_headings = rec.headings.length ∧
    rec.metrics.num_internal_links = rec.internal_links.length ∧
    rec.metrics.num_external_links = rec.external_links.length ∧
    rec.metrics.word_count = wordCount (paragraphText doc) ∧
    rec.top_keywords = topKeywords (paragraphText doc) := by
  simp only [analyze_article] at h
  cases hd : extractDomain url with
  | none =>
    rw [hd] at h
    exact absurd h (by simp)
  | some dom =>
    rw [hd] at h
    simp only [] at h
    injection h with h2
    subst h2
    exact ⟨rfl, rfl, rfl, rfl, rfl⟩

/-- Witness for C10: the record produced for `sampleDoc` satisfies all
four consistency equations. -/
theorem C10_witness :
    sampleRec.metrics.num_headings = sampleRec.headings.length ∧
    sampleRec.metrics.num_internal_links =
      sampleRec.internal_links.length ∧
    sampleRec.metrics.num_external_links =
      sampleRec.external_links.length ∧
    sampleRec.metrics.word_count = wordCount (paragraphText sampleDoc) ∧
    sampleRec.top_keywords = topKeywords (paragraphText sampleDoc) :=
  C10_record_consistency "https://www.ex.com/a" "ts" sampleDoc sampleRec
    (by with_unfolding_all rfl)

end SEOAudit
